import Mathlib

/-!
Verification of the task-tracking store (`models.py`): schema migration,
task lifecycle (numbering, creation, field-diff updates, comments),
user verification and database initialization.

The SQLite-backed store is shallowly embedded: a database is explicit state
(lists of rows), every store operation is a pure function from state to state
plus its Python return value, and the wall clock is an explicit parameter.
Timestamps keep the calendar day (what SQLite `date(...)` extracts, identified
with the `%y%m%d` rendering used in task numbers) plus a tick.  Rows hold
dynamically typed values, as both SQLite columns and the Python dicts do.
`ORDER BY timestamp` on history/comment rows is modelled as insertion order:
rows are only ever inserted with `CURRENT_TIMESTAMP`, so with a monotone clock
the table order is already timestamp order.
-/

set_option maxRecDepth 8000

namespace TasksApp

/-- One instant of `CURRENT_TIMESTAMP`: the calendar day plus a tick within
the day. -/
structure Timestamp where
  day : String
  tick : Nat
deriving DecidableEq

/-- A dynamically typed value as it flows between SQLite and the Python
layer: NULL, an integer, a plain string, or a timestamp string (kept as its
own constructor; a `ts` value stands for the canonical timestamp rendering,
which is distinct from every `str` value). -/
inductive Value where
  | null
  | int (n : Int)
  | str (s : String)
  | ts (t : Timestamp)
deriving DecidableEq

/-- One value of the JSON object stored in `task_history.changes` by
`json.dumps`: either a from/to pair (field updates) or a plain string
(comment previews). -/
inductive JsonField where
  | diff (f t : Value)
  | text (s : String)
deriving DecidableEq

/-- The JSON object text stored in `task_history.changes`, as key/value pairs
in Python dict insertion order (`[]` is the empty object). -/
abbrev ChangesJson := List (String × JsonField)

/-! ### Decimal rendering, the model of Python `f"{n:04d}"` -/

/-- The decimal digit character for `d` (`48` is the code of the zero digit). -/
def digitChar (d : Nat) : Char := Char.ofNat (48 + d)

/-- Numeric value of a decimal digit character. -/
def charDigit (c : Char) : Nat := c.toNat - 48

/-- Little-endian decimal digits of `n`, with explicit fuel so that the
definition is structural. -/
def decDigitsAux : Nat → Nat → List Nat
  | 0, _ => []
  | _ + 1, 0 => []
  | fuel + 1, n + 1 => (n + 1) % 10 :: decDigitsAux fuel ((n + 1) / 10)

/-- Little-endian decimal digits of `n`. -/
def decDigits (n : Nat) : List Nat := decDigitsAux n n

/-- Decimal rendering of a natural number, as Python `"%d" % n` prints it. -/
def natToDec (n : Nat) : String :=
  if n = 0 then String.mk [digitChar 0]
  else String.mk ((decDigits n).map digitChar).reverse

/-- Python `f"{n:04d}"`: the decimal rendering of `n`, left-padded with the
zero digit to at least four characters. -/
def pad4 (n : Nat) : String :=
  let s := natToDec n
  String.mk (List.replicate (4 - s.length) (digitChar 0)) ++ s

/-- Reads a decimal digit string back as a number (left inverse used to prove
`pad4` injective). -/
def decVal (s : String) : Nat :=
  s.data.foldl (fun a c => 10 * a + charDigit c) 0

/-! ### The task store (`TaskManager` rows and state) -/

/-- One row of the `tasks` table, with the twelve columns that
`_dict_from_row` exposes.  Columns are dynamically typed, as in SQLite and in
the Python dict. -/
structure TaskRow where
  id : Value
  number : Value
  title : Value
  description : Value
  priority : Value
  urgency : Value
  status : Value
  progress : Value
  created_by : Value
  assigned_to : Value
  created_at : Value
  updated_at : Value
deriving DecidableEq

/-- One row of the `task_history` table; `changes` is the parsed JSON text. -/
structure HistoryRow where
  id : Nat
  task_id : Nat
  action : String
  user : String
  changes : ChangesJson
  timestamp : Timestamp
deriving DecidableEq

/-- One row of the `task_comments` table. -/
structure CommentRow where
  id : Nat
  task_id : Nat
  user : String
  text : String
  timestamp : Timestamp
deriving DecidableEq

/-- The persistent store: the three task-side tables plus the next
`AUTOINCREMENT` rowid of each. -/
structure Store where
  tasks : List TaskRow
  task_history : List HistoryRow
  task_comments : List CommentRow
  next_task_id : Nat
  next_history_id : Nat
  next_comment_id : Nat
deriving DecidableEq

/-- Python `key in current_task` / `current_task[key]` over the dict built by
`_dict_from_row`: the twelve column names are the recognized task fields. -/
def TaskRow.getField (r : TaskRow) (k : String) : Option Value :=
  if k = "id" then some r.id
  else if k = "number" then some r.number
  else if k = "title" then some r.title
  else if k = "description" then some r.description
  else if k = "priority" then some r.priority
  else if k = "urgency" then some r.urgency
  else if k = "status" then some r.status
  else if k = "progress" then some r.progress
  else if k = "created_by" then some r.created_by
  else if k = "assigned_to" then some r.assigned_to
  else if k = "created_at" then some r.created_at
  else if k = "updated_at" then some r.updated_at
  else none

/-- The SQL assignment `{key} = ?` on a task row (unknown keys never reach
this point in `update_task`). -/
def TaskRow.setField (r : TaskRow) (k : String) (v : Value) : TaskRow :=
  if k = "id" then { r with id := v }
  else if k = "number" then { r with number := v }
  else if k = "title" then { r with title := v }
  else if k = "description" then { r with description := v }
  else if k = "priority" then { r with priority := v }
  else if k = "urgency" then { r with urgency := v }
  else if k = "status" then { r with status := v }
  else if k = "progress" then { r with progress := v }
  else if k = "created_by" then { r with created_by := v }
  else if k = "assigned_to" then { r with assigned_to := v }
  else if k = "created_at" then { r with created_at := v }
  else if k = "updated_at" then { r with updated_at := v }
  else r

/-- The value `get_task` returns for an existing task: the row dict plus its
history and comments (`ORDER BY timestamp` realized as insertion order, see
the header note). -/
structure TaskView where
  task : TaskRow
  history : List HistoryRow
  comments : List CommentRow
deriving DecidableEq

namespace TaskManager

/-- `TaskManager.get_task`: the first row matching `WHERE id = ?`, with the
task's history and comment rows, or `None`. -/
def get_task (s : Store) (task_id : Nat) : Option TaskView :=
  match s.tasks.find? (fun r => decide (r.id = Value.int task_id)) with
  | none => none
  | some row =>
    some { task := row
           history := s.task_history.filter (fun h => decide (h.task_id = task_id))
           comments := s.task_comments.filter (fun c => decide (c.task_id = task_id)) }

/-- `number LIKE 'TASK-{date_str}-%'`: prefix match on a text value (a NULL,
integer or timestamp value never matches, its rendering starts with a
digit). -/
def likeTaskNumber (pref : String) : Value → Bool
  | Value.str s => pref.data.isPrefixOf s.data
  | _ => false

/-- `date(created_at) = date('now')` for the given day. -/
def createdOn (day : String) : Value → Bool
  | Value.ts t => decide (t.day = day)
  | _ => false

/-- The `SELECT COUNT(*)` of `generate_task_number`: tasks whose number
carries today's prefix and whose creation date is today. -/
def countTodaysTasks (s : Store) (today : String) : Nat :=
  (s.tasks.filter (fun r =>
    likeTaskNumber ("TASK-" ++ today ++ "-") r.number && createdOn today r.created_at)).length

/-- `TaskManager.generate_task_number`: `TASK-{today}-{count+1:04d}`. -/
def generate_task_number (s : Store) (today : String) : String :=
  "TASK-" ++ today ++ "-" ++ pad4 (countTodaysTasks s today + 1)

/-- The input dict of `add_task` (`title`, `description`, `priority`,
`urgency`, `created_by` are required keys; `assigned_to` is `.get`-ed). -/
structure TaskData where
  title : String
  description : String
  priority : String
  urgency : String
  created_by : String
  assigned_to : Option String
deriving DecidableEq

/-- `TaskManager.add_task`: generates the number, inserts the task row with
status `новая` and progress `0`, inserts the `Задача создана` history row
with empty change set, and returns `get_task` of the new id. -/
def add_task (s : Store) (d : TaskData) (now : Timestamp) : Store × Option TaskView :=
  let number := generate_task_number s now.day
  let tid := s.next_task_id
  let row : TaskRow :=
    { id := Value.int tid
      number := Value.str number
      title := Value.str d.title
      description := Value.str d.description
      priority := Value.str d.priority
      urgency := Value.str d.urgency
      status := Value.str ("новая")
      progress := Value.int 0
      created_by := Value.str d.created_by
      assigned_to := match d.assigned_to with
        | some a => Value.str a
        | none => Value.null
      created_at := Value.ts now
      updated_at := Value.ts now }
  let s' : Store :=
    { s with
      tasks := s.tasks ++ [row]
      task_history := s.task_history ++
        [{ id := s.next_history_id, task_id := tid, action := "Задача создана",
           user := d.created_by, changes := [], timestamp := now }]
      next_task_id := tid + 1
      next_history_id := s.next_history_id + 1 }
  (s', get_task s' tid)

/-- The diff loop of `update_task`: keep the proposed fields that are
recognized task fields and actually change, as `(key, from, to)` in proposal
order. -/
def computeChanges (cur : TaskRow) (updates : List (String × Value)) :
    List (String × Value × Value) :=
  updates.filterMap (fun kv =>
    match cur.getField kv.1 with
    | some old => if old = kv.2 then none else some (kv.1, old, kv.2)
    | none => none)

/-- The `UPDATE tasks SET ...` of `update_task`: the changed fields in order,
then `updated_at = CURRENT_TIMESTAMP` (written last in the statement, so it
wins over any earlier assignment to the same column). -/
def applyChanges (r : TaskRow) (changes : List (String × Value × Value))
    (now : Timestamp) : TaskRow :=
  (changes.foldl (fun acc c => acc.setField c.1 c.2.2) r).setField
    ("updated_at") (Value.ts now)

/-- `TaskManager.update_task`: diff the proposed dict against the current
row; if nothing changed, touch nothing; otherwise update the row (refreshing
`updated_at`) and insert one `Задача обновлена` history row whose `changes`
JSON maps each changed field to its from/to pair. -/
def update_task (s : Store) (task_id : Nat) (updates : List (String × Value))
    (user : String) (now : Timestamp) : Store × Option TaskView :=
  match s.tasks.find? (fun r => decide (r.id = Value.int task_id)) with
  | none => (s, none)
  | some cur =>
    let changes := computeChanges cur updates
    if changes.isEmpty then (s, get_task s task_id)
    else
      let s' : Store :=
        { s with
          tasks := s.tasks.map (fun r =>
            if r.id = Value.int task_id then applyChanges r changes now else r)
          task_history := s.task_history ++
            [{ id := s.next_history_id, task_id := task_id,
               action := "Задача обновлена", user := user,
               changes := changes.map (fun c => (c.1, JsonField.diff c.2.1 c.2.2)),
               timestamp := now }]
          next_history_id := s.next_history_id + 1 }
      (s', get_task s' task_id)

/-- The history preview of a comment: the first 50 characters plus an
ellipsis when the text is longer than 50 characters, the full text
otherwise. -/
def commentPreview (comment : String) : String :=
  if comment.length > 50 then comment.take 50 ++ "..." else comment

/-- `TaskManager.add_comment`: inserts the comment row (full text) and the
`Добавлен комментарий` history row (truncated preview) unconditionally —
the task id is never checked — then returns `get_task` of that id. -/
def add_comment (s : Store) (task_id : Nat) (comment : String) (user : String)
    (now : Timestamp) : Store × Option TaskView :=
  let s' : Store :=
    { s with
      task_comments := s.task_comments ++
        [{ id := s.next_comment_id, task_id := task_id, user := user,
           text := comment, timestamp := now }]
      task_history := s.task_history ++
        [{ id := s.next_history_id, task_id := task_id,
           action := "Добавлен комментарий", user := user,
           changes := [("comment", JsonField.text (commentPreview comment))],
           timestamp := now }]
      next_comment_id := s.next_comment_id + 1
      next_history_id := s.next_history_id + 1 }
  (s', get_task s' task_id)

/-- A serialized sequence of task creations on one day, each with its own
tick. -/
def runCreates (day : String) : Store → List (TaskData × Nat) → Store
  | s, [] => s
  | s, (d, tk) :: rest => runCreates day (add_task s d ⟨day, tk⟩).1 rest

end TaskManager

/-! ### The schema migrator (`MigrationManager`) -/

/-- Lookup in a string-keyed association list (a Python dict / the SQLite
catalog keyed by table name). -/
def alookup {α : Type} (l : List (String × α)) (k : String) : Option α :=
  (l.find? (fun p => decide (p.1 = k))).map Prod.snd

/-- Update-or-insert in a string-keyed association list (Python dict
assignment). -/
def aset {α : Type} (l : List (String × α)) (k : String) (v : α) :
    List (String × α) :=
  if (l.find? (fun p => decide (p.1 = k))).isSome then
    l.map (fun p => if p.1 = k then (k, v) else p)
  else l ++ [(k, v)]

/-- Deletion from a string-keyed association list (Python `dict.pop`). -/
def aerase {α : Type} (l : List (String × α)) (k : String) : List (String × α) :=
  l.filter (fun p => !(decide (p.1 = k)))

/-- One queued `add_column` dict of `MigrationManager.pending_actions`. -/
structure PendingAction where
  table : String
  column : String
  column_type : String
  fill_expression : Option String
deriving DecidableEq

/-- The on-disk database as the migrator sees it: the schema (table name to
column names, in order), how many backup files exist under `backups/`, and
whether the database file itself exists.  Row contents are below the level of
this schema model; a backfill `UPDATE` changes rows, never the schema. -/
structure DBFile where
  schema : List (String × List String)
  backups : Nat
  fileExists : Bool
deriving DecidableEq

/-- `MigrationManager` state: its connection's database, the queued actions,
and the `_columns_cache`. -/
structure MigrationManager where
  db : DBFile
  pending_actions : List PendingAction
  columns_cache : List (String × List String)
deriving DecidableEq

namespace MigrationManager

/-- `ensure_table`: consult `sqlite_master`; when the table is absent execute
its DDL (whose column list is `ddl_columns`) and drop the cache entry. -/
def ensure_table (m : MigrationManager) (name : String)
    (ddl_columns : List String) : MigrationManager :=
  if (alookup m.db.schema name).isSome then m
  else
    { m with
      db := { m.db with schema := m.db.schema ++ [(name, ddl_columns)] }
      columns_cache := aerase m.columns_cache name }

/-- `_get_columns`: the cached column list, loading `PRAGMA table_info` into
the cache on a miss (a missing table yields `[]`). -/
def get_columns (m : MigrationManager) (table : String) :
    MigrationManager × List String :=
  match alookup m.columns_cache table with
  | some cols => (m, cols)
  | none =>
    let cols := (alookup m.db.schema table).getD []
    ({ m with columns_cache := aset m.columns_cache table cols }, cols)

/-- `ensure_column`: nothing to do when the column is present; otherwise
queue an `add_column` action and extend the cached column list (the source
mutates the cached list in place). -/
def ensure_column (m : MigrationManager) (table column column_type : String)
    (fill_expression : Option String) : MigrationManager :=
  let mc := m.get_columns table
  if column ∈ mc.2 then mc.1
  else
    { mc.1 with
      pending_actions := mc.1.pending_actions ++
        [{ table := table, column := column, column_type := column_type,
           fill_expression := fill_expression }]
      columns_cache := aset mc.1.columns_cache table (mc.2 ++ [column]) }

/-- `ALTER TABLE {table} ADD COLUMN {column} ...` on the schema. -/
def addColumn (schema : List (String × List String)) (table column : String) :
    List (String × List String) :=
  schema.map (fun p => if p.1 = table then (p.1, p.2 ++ [column]) else p)

/-- `apply`: a no-op when nothing is queued; otherwise back the database file
up first (`backupOk` tells whether the `shutil.copy2` succeeds; a missing
file skips the backup) and only then execute the queued additions.  A failed
copy raises before any `ALTER` runs: the state is returned untouched with the
failure flag. -/
def apply (m : MigrationManager) (backupOk : Bool) : MigrationManager × Bool :=
  if m.pending_actions.isEmpty then (m, true)
  else if m.db.fileExists && !backupOk then (m, false)
  else
    let db1 := if m.db.fileExists then { m.db with backups := m.db.backups + 1 }
      else m.db
    let schema' := m.pending_actions.foldl
      (fun sc a => addColumn sc a.table a.column) db1.schema
    ({ m with db := { db1 with schema := schema' } }, true)

end MigrationManager

/-! ### Database initialization (`Database.init_db`) -/

/-- Column lists of the five `CREATE TABLE` statements in `init_db`. -/
def usersDDL : List String :=
  ["id", "username", "password", "role", "name", "email", "created_at", "updated_at"]

def tasksDDL : List String :=
  ["id", "number", "title", "description", "priority", "urgency", "status",
   "progress", "created_by", "assigned_to", "created_at", "updated_at"]

def taskHistoryDDL : List String :=
  ["id", "task_id", "action", "user", "changes", "timestamp"]

def taskCommentsDDL : List String :=
  ["id", "task_id", "user", "text", "timestamp"]

def systemSettingsDDL : List String :=
  ["id", "setting_key", "setting_value", "updated_at"]

namespace Database

/-- The migration phase of `Database.init_db`: the five `ensure_table` calls,
the two `ensure_column` calls on `users`, then `apply`. -/
def run_migrations (db : DBFile) (backupOk : Bool) : DBFile × Bool :=
  let m0 : MigrationManager := { db := db, pending_actions := [], columns_cache := [] }
  let m1 := m0.ensure_table ("users") usersDDL
  let m2 := m1.ensure_table ("tasks") tasksDDL
  let m3 := m2.ensure_table ("task_history") taskHistoryDDL
  let m4 := m3.ensure_table ("task_comments") taskCommentsDDL
  let m5 := m4.ensure_table ("system_settings") systemSettingsDDL
  let m6 := m5.ensure_column ("users") ("email") ("TEXT") none
  let m7 := m6.ensure_column ("users") ("updated_at") ("TIMESTAMP") (some "CURRENT_TIMESTAMP")
  let r := m7.apply backupOk
  (r.1.db, r.2)

end Database

/-- A database whose schema is already what `init_db` expects: the five
tables exist and `users` has the `email` and `updated_at` columns. -/
def DBFile.UpToDate (db : DBFile) : Prop :=
  (alookup db.schema "users").isSome = true ∧
  (alookup db.schema "tasks").isSome = true ∧
  (alookup db.schema "task_history").isSome = true ∧
  (alookup db.schema "task_comments").isSome = true ∧
  (alookup db.schema "system_settings").isSome = true ∧
  "email" ∈ (alookup db.schema "users").getD [] ∧
  "updated_at" ∈ (alookup db.schema "users").getD []

/-! ### The user store (`UserManager` / `Database.init_db` seeding) -/

/-- One row of the `users` table, in column order (`verify_user` returns a
dict with exactly these six fields). -/
structure UserRow where
  id : Nat
  username : String
  password : String
  role : String
  name : String
  email : Option String
deriving DecidableEq

namespace UserManager

/-- `UserManager.verify_user`: look the username up, then compare the
password against the stored hash with the collaborator predicate `check`
(`check_password_hash`).  Unknown username and wrong password both return
`None`. -/
def verify_user (users : List UserRow) (check : String → String → Bool)
    (username password : String) : Option UserRow :=
  match users.find? (fun u => decide (u.username = username)) with
  | some u => if check u.password password then some u else none
  | none => none

end UserManager

namespace Database

/-- The user-seeding tail of `Database.init_db`: when no user exists, insert
the default `admin`/`admin` user (with the generated password's hash), then
delete any user whose username is `user` with role `worker`. -/
def seed_users (users : List UserRow) (password_hash : String) (next_id : Nat) :
    List UserRow :=
  let users1 :=
    if users.length = 0 then
      users ++ [{ id := next_id, username := "admin", password := password_hash,
                  role := "admin", name := "Администратор", email := none }]
    else users
  users1.filter (fun u => !(decide (u.username = "user") && decide (u.role = "worker")))

end Database

/-- At least one user with the admin role exists. -/
def hasAdmin (users : List UserRow) : Bool :=
  users.any (fun u => decide (u.role = "admin"))

/-! ### Concrete fixtures used by witnesses and counterexamples -/

/-- A sample task row (id 1, created on day `250101`). -/
def sampleTask : TaskRow :=
  { id := Value.int 1
    number := Value.str "TASK-250101-0001"
    title := Value.str "t"
    description := Value.str "d"
    priority := Value.str "low"
    urgency := Value.str "high"
    status := Value.str "новая"
    progress := Value.int 0
    created_by := Value.str "bob"
    assigned_to := Value.null
    created_at := Value.ts { day := "250101", tick := 0 }
    updated_at := Value.ts { day := "250101", tick := 0 } }

/-- A store holding just `sampleTask` and its creation history row. -/
def sampleStore : Store :=
  { tasks := [sampleTask]
    task_history := [{ id := 1, task_id := 1, action := "Задача создана",
                       user := "bob", changes := [],
                       timestamp := { day := "250101", tick := 0 } }]
    task_comments := []
    next_task_id := 2
    next_history_id := 2
    next_comment_id := 1 }

/-- A store with no rows at all. -/
def emptyStore : Store :=
  { tasks := [], task_history := [], task_comments := []
    next_task_id := 1, next_history_id := 1, next_comment_id := 1 }

/-- Sample creation data. -/
def sampleData : TaskManager.TaskData :=
  { title := "t", description := "d", priority := "low", urgency := "high",
    created_by := "bob", assigned_to := none }

/-- A database file whose schema is exactly what `init_db` expects. -/
def upDB : DBFile :=
  { schema := [("users", usersDDL), ("tasks", tasksDDL),
               ("task_history", taskHistoryDDL), ("task_comments", taskCommentsDDL),
               ("system_settings", systemSettingsDDL)]
    backups := 0
    fileExists := true }

/-- A migrator with one queued action against an existing database file. -/
def samplePendingMigrator : MigrationManager :=
  { db := { schema := [("users", ["id", "username"])], backups := 0, fileExists := true }
    pending_actions := [{ table := "users", column := "email",
                          column_type := "TEXT", fill_expression := none }]
    columns_cache := [("users", ["id", "username", "email"])] }

/-- A user row that is not an admin. -/
def bobWorker : UserRow :=
  { id := 1, username := "bob", password := "h", role := "worker",
    name := "Bob", email := none }

/-- A user row with a known "hash" (the check predicate of the witness treats
hash and password as equal strings). -/
def aliceUser : UserRow :=
  { id := 1, username := "alice", password := "pw", role := "admin",
    name := "Alice", email := none }

/-! ## Theorems -/

/-! ### Decimal rendering lemmas -/

theorem decDigitsAux_congr : ∀ f₁ f₂ n, n ≤ f₁ → n ≤ f₂ →
    decDigitsAux f₁ n = decDigitsAux f₂ n := by
  intro f₁
  induction f₁ with
  | zero =>
    intro f₂ n h₁ _
    interval_cases n
    cases f₂ <;> rfl
  | succ f ih =>
    intro f₂ n h₁ h₂
    match n, f₂ with
    | 0, 0 => rfl
    | 0, _ + 1 => rfl
    | n + 1, f₂ + 1 =>
      show (n + 1) % 10 :: decDigitsAux f ((n + 1) / 10) =
        (n + 1) % 10 :: decDigitsAux f₂ ((n + 1) / 10)
      have hd : (n + 1) / 10 ≤ f := by
        have := Nat.div_lt_self (Nat.succ_pos n) (by norm_num : 1 < 10)
        omega
      have hd₂ : (n + 1) / 10 ≤ f₂ := by
        have := Nat.div_lt_self (Nat.succ_pos n) (by norm_num : 1 < 10)
        omega
      rw [ih f₂ _ hd hd₂]

theorem decDigits_succ (n : Nat) :
    decDigits (n + 1) = (n + 1) % 10 :: decDigits ((n + 1) / 10) := by
  show decDigitsAux (n + 1) (n + 1) = (n + 1) % 10 :: decDigitsAux ((n + 1) / 10) ((n + 1) / 10)
  show (n + 1) % 10 :: decDigitsAux n ((n + 1) / 10) = _
  have hd : (n + 1) / 10 ≤ n := by
    have := Nat.div_lt_self (Nat.succ_pos n) (by norm_num : 1 < 10)
    omega
  rw [decDigitsAux_congr n ((n + 1) / 10) ((n + 1) / 10) hd (le_refl _)]

theorem decDigits_lt (n : Nat) : ∀ d ∈ decDigits n, d < 10 := by
  induction n using Nat.strong_induction_on with
  | _ n ih =>
    match n with
    | 0 => intro d hd; simp [decDigits, decDigitsAux] at hd
    | n + 1 =>
      intro d hd
      rw [decDigits_succ] at hd
      rcases List.mem_cons.mp hd with h | h
      · subst h; exact Nat.mod_lt _ (by norm_num)
      · exact ih ((n + 1) / 10) (Nat.div_lt_self (Nat.succ_pos n) (by norm_num)) d h

theorem foldr_decDigits (n : Nat) :
    (decDigits n).foldr (fun d a => 10 * a + d) 0 = n := by
  induction n using Nat.strong_induction_on with
  | _ n ih =>
    match n with
    | 0 => rfl
    | n + 1 =>
      rw [decDigits_succ]
      simp only [List.foldr_cons]
      rw [ih ((n + 1) / 10) (Nat.div_lt_self (Nat.succ_pos n) (by norm_num))]
      omega

theorem charDigit_digitChar (d : Nat) (h : d < 10) : charDigit (digitChar d) = d := by
  interval_cases d <;> rfl

theorem foldr_digits_map (ds : List Nat) (h : ∀ d ∈ ds, d < 10) :
    (ds.map digitChar).foldr (fun c a => 10 * a + charDigit c) 0 =
      ds.foldr (fun d a => 10 * a + d) 0 := by
  induction ds with
  | nil => rfl
  | cons d ds ih =>
    simp only [List.map_cons, List.foldr_cons]
    rw [ih (fun x hx => h x (List.mem_cons_of_mem _ hx)),
      charDigit_digitChar d (h d (List.mem_cons_self _ _))]

theorem decVal_natToDec (n : Nat) : decVal (natToDec n) = n := by
  by_cases h0 : n = 0
  · subst h0; rfl
  · unfold natToDec decVal
    rw [if_neg h0]
    show ((decDigits n).map digitChar).reverse.foldl (fun a c => 10 * a + charDigit c) 0 = n
    rw [List.foldl_reverse]
    have : ((decDigits n).map digitChar).foldr (fun c a => 10 * a + charDigit c) 0 = n := by
      rw [foldr_digits_map _ (decDigits_lt n), foldr_decDigits]
    simpa using this

theorem foldl_zeros (k : Nat) (a : Nat) (ha : a = 0) :
    (List.replicate k (digitChar 0)).foldl (fun a c => 10 * a + charDigit c) a = 0 := by
  induction k generalizing a with
  | zero => simpa using ha
  | succ k ih =>
    simp only [List.replicate_succ, List.foldl_cons]
    exact ih _ (by subst ha; rfl)

theorem decVal_pad4 (n : Nat) : decVal (pad4 n) = n := by
  unfold pad4 decVal
  have hdata : (String.mk (List.replicate (4 - (natToDec n).length) (digitChar 0)) ++ natToDec n).data
      = List.replicate (4 - (natToDec n).length) (digitChar 0) ++ (natToDec n).data := by
    simp [String.data_append]
  rw [hdata, List.foldl_append, foldl_zeros _ 0 rfl]
  exact decVal_natToDec n

theorem pad4_injective : Function.Injective pad4 := by
  intro a b h
  rw [← decVal_pad4 a, ← decVal_pad4 b, h]

theorem string_append_left_cancel {p x y : String} (h : p ++ x = p ++ y) : x = y := by
  have hd : p.data ++ x.data = p.data ++ y.data := by
    have := congrArg String.data h
    simpa [String.data_append] using this
  have hxy : x.data = y.data := List.append_cancel_left hd
  cases x; cases y
  exact congrArg String.mk hxy


/-! ### Generic list helpers -/

theorem find?_append_none {α : Type} (p : α → Bool) (l₁ l₂ : List α)
    (h : l₁.find? p = none) : (l₁ ++ l₂).find? p = l₂.find? p := by
  induction l₁ with
  | nil => rfl
  | cons a l ih =>
    rw [List.cons_append]
    cases hp : p a with
    | true => simp [List.find?_cons, hp] at h
    | false =>
      have h' : l.find? p = none := by simpa [List.find?_cons, hp] using h
      simpa [List.find?_cons, hp] using ih h'

/-! ### Claims about the user store -/

/-- **C9.** `verify_user(username, password)` returns the user record exactly
when a user with that username exists (usernames are unique) and the password
matches the stored hash; an unknown username and a wrong password both return
the same failure signal `None`, so the two causes are indistinguishable to
the caller. -/
theorem UserManager.verify_user_spec (users : List UserRow)
    (check : String → String → Bool) (username password : String)
    (huniq : (users.map UserRow.username).Nodup) :
    (∀ u, UserManager.verify_user users check username password = some u ↔
      (u ∈ users ∧ u.username = username ∧ check u.password password = true))
    ∧ ((¬ ∃ u ∈ users, u.username = username) →
        UserManager.verify_user users check username password = none)
    ∧ (∀ u, u ∈ users → u.username = username → check u.password password = false →
        UserManager.verify_user users check username password = none) := by
  cases hfind : users.find? (fun u => decide (u.username = username)) with
  | none =>
    have hval : UserManager.verify_user users check username password = none := by
      unfold UserManager.verify_user
      rw [hfind]
    have hnone := List.find?_eq_none.mp hfind
    refine ⟨fun u => ⟨fun h => ?_, fun ⟨hm, he, _⟩ => ?_⟩, fun _ => hval,
      fun u hm he _ => hval⟩
    · rw [hval] at h; cases h
    · exact absurd (by simpa using he) (by simpa using hnone u hm)
  | some v =>
    have hval : UserManager.verify_user users check username password =
        if check v.password password = true then some v else none := by
      unfold UserManager.verify_user
      rw [hfind]
    have hv : v.username = username := by
      have := List.find?_some hfind
      simpa using this
    have hvm : v ∈ users := List.mem_of_find?_eq_some hfind
    refine ⟨fun u => ⟨fun h => ?_, fun ⟨hm, he, hc⟩ => ?_⟩,
      fun hex => absurd ⟨v, hvm, hv⟩ hex, fun u hm he hc => ?_⟩
    · rw [hval] at h
      by_cases hc : check v.password password = true
      · rw [if_pos hc] at h
        cases h
        exact ⟨hvm, hv, hc⟩
      · rw [if_neg hc] at h
        cases h
    · have huv : u = v :=
        List.inj_on_of_nodup_map huniq hm hvm (by rw [he, hv])
      subst huv
      rw [hval, if_pos hc]
    · have huv : u = v :=
        List.inj_on_of_nodup_map huniq hm hvm (by rw [he, hv])
      subst huv
      rw [hval, if_neg (by simp [hc])]

/-- Witness for C9: with a one-user store, the right password verifies and
returns the row. -/
theorem UserManager.verify_user_spec_witness :
    (([aliceUser].map UserRow.username).Nodup)
    ∧ UserManager.verify_user [aliceUser] (fun h p => h == p) "alice" "pw"
        = some aliceUser :=
  ⟨by decide,
    ((UserManager.verify_user_spec [aliceUser] (fun h p => h == p) ("alice") ("pw")
      (by decide)).1 aliceUser).mpr (by decide)⟩

/-! ### Claims about database initialization -/

/-- **C8 (counterexample).** Initialization run against a store already
holding one non-admin user seeds nothing: afterwards no admin exists, so the
claimed invariant fails for this prior state. -/
theorem Database.seed_users_no_admin_cex :
    hasAdmin (Database.seed_users [bobWorker] ("ph") 2) = false := by decide

/-- **C8 (amended).** When the user store is empty before initialization —
the only situation in which `init_db` seeds a user — at least one admin
exists afterwards. -/
theorem Database.seed_users_admin_of_empty (users : List UserRow)
    (password_hash : String) (next_id : Nat) (h : users = []) :
    hasAdmin (Database.seed_users users password_hash next_id) = true := by
  subst h
  simp [Database.seed_users, hasAdmin]

/-- Witness for the amended C8 at the empty store. -/
theorem Database.seed_users_admin_of_empty_witness :
    ([] : List UserRow) = []
    ∧ hasAdmin (Database.seed_users [] ("x") 7) = true :=
  ⟨rfl, Database.seed_users_admin_of_empty [] ("x") 7 rfl⟩

/-! ### Claims about the schema migrator -/

/-- **C7.** With queued changes, a failing backup copy of an existing
database file aborts `apply` before any schema mutation: the state is
returned untouched with the failure signal.  And whenever `apply` succeeds
with queued changes against an existing database file, a backup file was
created (the backup count grows by one), so no queued addition is ever
applied without a preceding successful backup of the existing data file. -/
theorem MigrationManager.apply_backup_spec (m : MigrationManager)
    (hpending : m.pending_actions ≠ []) :
    (m.db.fileExists = true → m.apply false = (m, false))
    ∧ (∀ b, (m.apply b).2 = true → m.db.fileExists = true →
        (m.apply b).1.db.backups = m.db.backups + 1) := by
  have hne : m.pending_actions.isEmpty = false := by
    simpa [List.isEmpty_iff] using hpending
  constructor
  · intro hfe
    unfold MigrationManager.apply
    rw [hne]
    simp [hfe]
  · intro b hok hfe
    unfold MigrationManager.apply at hok ⊢
    rw [hne] at hok ⊢
    cases b with
    | false => simp [hfe] at hok
    | true => simp [hfe]

/-- Witness for C7: a migrator with one queued action and an existing file
aborts unchanged on a failed backup. -/
theorem MigrationManager.apply_backup_spec_witness :
    samplePendingMigrator.pending_actions ≠ []
    ∧ samplePendingMigrator.apply false = (samplePendingMigrator, false) :=
  ⟨by decide,
    (MigrationManager.apply_backup_spec samplePendingMigrator (by decide)).1 rfl⟩

/-! ### Claims about comments -/

/-- **C10.** For an id matching no task, `add_comment` returns the not-found
signal `None`, yet still inserts the comment row and the history row
referencing that id (the foreign key is not enforced), so the store is not
left unchanged. -/
theorem TaskManager.add_comment_not_found (s : Store) (task_id : Nat)
    (comment user : String) (now : Timestamp)
    (hnone : s.tasks.find? (fun r => decide (r.id = Value.int task_id)) = none) :
    (TaskManager.add_comment s task_id comment user now).2 = none
    ∧ (TaskManager.add_comment s task_id comment user now).1.task_comments =
        s.task_comments ++ [⟨s.next_comment_id, task_id, user, comment, now⟩]
    ∧ (TaskManager.add_comment s task_id comment user now).1.task_history =
        s.task_history ++
          [⟨s.next_history_id, task_id, "Добавлен комментарий", user,
            [("comment", JsonField.text (TaskManager.commentPreview comment))], now⟩]
    ∧ (TaskManager.add_comment s task_id comment user now).1 ≠ s := by
  refine ⟨?_, rfl, rfl, ?_⟩
  · unfold TaskManager.add_comment TaskManager.get_task
    simp only
    rw [hnone]
  · intro h
    have hlen := congrArg (fun st => st.task_comments.length) h
    simp [TaskManager.add_comment] at hlen

/-- Witness for C10: commenting on the missing id 7 of the empty store. -/
theorem TaskManager.add_comment_not_found_witness :
    emptyStore.tasks.find? (fun r => decide (r.id = Value.int 7)) = none
    ∧ (TaskManager.add_comment emptyStore 7 ("hi") ("bob") ⟨"250101", 1⟩).2 = none :=
  ⟨by decide,
    (TaskManager.add_comment_not_found emptyStore 7 ("hi") ("bob") ⟨"250101", 1⟩
      (by decide)).1⟩

/-! ### Claims about task updates -/

theorem setField_number_of_ne (r : TaskRow) (k : String) (v : Value)
    (hk : k ≠ "number") : (r.setField k v).number = r.number := by
  unfold TaskRow.setField
  by_cases h1 : k = "id"
  · rw [if_pos h1]
  rw [if_neg h1]
  by_cases h2 : k = "number"
  · exact absurd h2 hk
  rw [if_neg h2]
  by_cases h3 : k = "title"
  · rw [if_pos h3]
  rw [if_neg h3]
  by_cases h4 : k = "description"
  · rw [if_pos h4]
  rw [if_neg h4]
  by_cases h5 : k = "priority"
  · rw [if_pos h5]
  rw [if_neg h5]
  by_cases h6 : k = "urgency"
  · rw [if_pos h6]
  rw [if_neg h6]
  by_cases h7 : k = "status"
  · rw [if_pos h7]
  rw [if_neg h7]
  by_cases h8 : k = "progress"
  · rw [if_pos h8]
  rw [if_neg h8]
  by_cases h9 : k = "created_by"
  · rw [if_pos h9]
  rw [if_neg h9]
  by_cases h10 : k = "assigned_to"
  · rw [if_pos h10]
  rw [if_neg h10]
  by_cases h11 : k = "created_at"
  · rw [if_pos h11]
  rw [if_neg h11]
  by_cases h12 : k = "updated_at"
  · rw [if_pos h12]
  rw [if_neg h12]

theorem foldl_setField_number (l : List (String × Value × Value)) (r : TaskRow)
    (h : ∀ c ∈ l, c.1 ≠ "number") :
    (l.foldl (fun acc c => acc.setField c.1 c.2.2) r).number = r.number := by
  induction l generalizing r with
  | nil => rfl
  | cons c l ih =>
    rw [List.foldl_cons, ih _ (fun x hx => h x (List.mem_cons_of_mem _ hx)),
      setField_number_of_ne _ _ _ (h c (List.mem_cons_self _ _))]

theorem applyChanges_number (r : TaskRow) (changes : List (String × Value × Value))
    (now : Timestamp) (h : ∀ c ∈ changes, c.1 ≠ "number") :
    (TaskManager.applyChanges r changes now).number = r.number := by
  unfold TaskManager.applyChanges
  rw [setField_number_of_ne _ _ _ (by decide), foldl_setField_number _ _ h]

theorem computeChanges_keys (cur : TaskRow) (updates : List (String × Value)) :
    ∀ c ∈ TaskManager.computeChanges cur updates, ∃ kv ∈ updates, c.1 = kv.1 := by
  intro c hc
  obtain ⟨kv, hkv, hf⟩ := List.mem_filterMap.mp hc
  refine ⟨kv, hkv, ?_⟩
  cases hg : cur.getField kv.1 with
  | none =>
    rw [hg] at hf
    exact absurd hf (by simp)
  | some old =>
    rw [hg] at hf
    have hf' : (if old = kv.2 then (none : Option (String × Value × Value))
        else some (kv.1, old, kv.2)) = some c := hf
    by_cases he : old = kv.2
    · rw [if_pos he] at hf'
      cases hf'
    · rw [if_neg he] at hf'
      cases hf'
      rfl

/-- **C2 (counterexample).** `number` is a recognized task field of the
dynamic update dict, so `update(id, {number: "HACK"})` on an existing task
rewrites the task's number: the claim that no update call can alter `number`
fails. -/
theorem TaskManager.update_task_changes_number_cex :
    (TaskManager.update_task sampleStore 1 [("number", Value.str ("HACK"))]
        ("eve") ⟨"250102", 5⟩).1.tasks.map TaskRow.number
      ≠ sampleStore.tasks.map TaskRow.number := by decide

/-- **C2 (amended).** `number` is assigned at creation and is never altered
by an update call whose field map does not propose the key `number` — the
HTTP boundary only ever passes `progress`, `status`, `priority`, `urgency`
and `assigned_to` — nor by `add_comment`, which touches no task row. -/
theorem TaskManager.update_task_preserves_number (s : Store) (task_id : Nat)
    (updates : List (String × Value)) (user : String) (now : Timestamp)
    (h : ∀ kv ∈ updates, kv.1 ≠ "number") :
    (TaskManager.update_task s task_id updates user now).1.tasks.map TaskRow.number
      = s.tasks.map TaskRow.number
    ∧ (∀ c u t, (TaskManager.add_comment s task_id c u t).1.tasks = s.tasks) := by
  refine ⟨?_, fun c u t => rfl⟩
  unfold TaskManager.update_task
  cases hfind : s.tasks.find? (fun r => decide (r.id = Value.int task_id)) with
  | none => rfl
  | some cur =>
    simp only
    split
    · rfl
    · simp only [List.map_map]
      refine List.map_congr_left (fun r _ => ?_)
      simp only [Function.comp_apply]
      split
      · exact applyChanges_number _ _ _ (fun c hc => by
          obtain ⟨kv, hkv, he⟩ := computeChanges_keys cur updates c hc
          rw [he]
          exact h kv hkv)
      · rfl

/-- Witness for the amended C2: an update proposing only `status` leaves the
number column untouched. -/
theorem TaskManager.update_task_preserves_number_witness :
    (∀ kv ∈ [("status", Value.str ("в_работе"))], Prod.fst kv ≠ "number")
    ∧ (TaskManager.update_task sampleStore 1 [("status", Value.str ("в_работе"))]
        ("bob") ⟨"250102", 5⟩).1.tasks.map TaskRow.number
        = sampleStore.tasks.map TaskRow.number :=
  ⟨by decide,
    (TaskManager.update_task_preserves_number sampleStore 1
      [("status", Value.str ("в_работе"))] ("bob") ⟨"250102", 5⟩ (by decide)).1⟩

/-- **C5.** On an existing task, `add_comment` appends the comment row with
its full text and exactly one history row with the comment-added action; the
history preview is the first 50 characters plus an ellipsis when the text is
longer than 50 characters, and the full text otherwise; the returned task
view shows both appended. -/
theorem TaskManager.add_comment_spec (s : Store) (task_id : Nat)
    (comment user : String) (now : Timestamp) (cur : TaskRow)
    (hfind : s.tasks.find? (fun r => decide (r.id = Value.int task_id)) = some cur) :
    (TaskManager.add_comment s task_id comment user now).1.task_comments =
        s.task_comments ++ [⟨s.next_comment_id, task_id, user, comment, now⟩]
    ∧ (TaskManager.add_comment s task_id comment user now).1.task_history =
        s.task_history ++
          [⟨s.next_history_id, task_id, "Добавлен комментарий", user,
            [("comment", JsonField.text (TaskManager.commentPreview comment))], now⟩]
    ∧ (TaskManager.add_comment s task_id comment user now).2 =
        some ⟨cur,
          s.task_history.filter (fun h => decide (h.task_id = task_id)) ++
            [⟨s.next_history_id, task_id, "Добавлен комментарий", user,
              [("comment", JsonField.text (TaskManager.commentPreview comment))], now⟩],
          s.task_comments.filter (fun c => decide (c.task_id = task_id)) ++
            [⟨s.next_comment_id, task_id, user, comment, now⟩]⟩
    ∧ (comment.length > 50 →
        TaskManager.commentPreview comment = comment.take 50 ++ "...")
    ∧ (comment.length ≤ 50 → TaskManager.commentPreview comment = comment) := by
  refine ⟨rfl, rfl, ?_, fun hl => by simp [TaskManager.commentPreview, hl],
    fun hl => by simp [TaskManager.commentPreview, Nat.not_lt.mpr hl]⟩
  unfold TaskManager.add_comment TaskManager.get_task
  simp only
  rw [hfind]
  simp [List.filter_append]

/-- Witness for C5: a 60-character comment is stored in full while its
preview is the 50-character prefix plus the ellipsis. -/
theorem TaskManager.add_comment_spec_witness :
    sampleStore.tasks.find? (fun r => decide (r.id = Value.int 1)) = some sampleTask
    ∧ (TaskManager.add_comment sampleStore 1
        ("aaaaaaaaaabbbbbbbbbbccccccccccddddddddddeeeeeeeeeeffffffffff")
        ("bob") ⟨"250102", 1⟩).1.task_comments =
        sampleStore.task_comments ++
          [⟨1, 1, "bob", "aaaaaaaaaabbbbbbbbbbccccccccccddddddddddeeeeeeeeeeffffffffff",
            ⟨"250102", 1⟩⟩] :=
  ⟨by decide,
    (TaskManager.add_comment_spec sampleStore 1
      ("aaaaaaaaaabbbbbbbbbbccccccccccddddddddddeeeeeeeeeeffffffffff")
      ("bob") ⟨"250102", 1⟩ sampleTask (by decide)).1⟩

/-! ### Claims about task creation -/

/-- **C4.** `create(data)` assigns the next id, computes the task number,
sets status to the initial `новая` state and progress to `0`, records exactly
one creation history row with an empty change set, and returns the full task
with its history and comments.  The freshness hypotheses say the
`AUTOINCREMENT` id is not already used by a task, history or comment row. -/
theorem TaskManager.add_task_spec (s : Store) (d : TaskManager.TaskData)
    (now : Timestamp)
    (hfresh : ∀ r ∈ s.tasks, ¬ r.id = Value.int s.next_task_id)
    (hh : ∀ h ∈ s.task_history, ¬ h.task_id = s.next_task_id)
    (hc : ∀ c ∈ s.task_comments, ¬ c.task_id = s.next_task_id) :
    ∃ v : TaskView,
      (TaskManager.add_task s d now).2 = some v
      ∧ v.task.id = Value.int s.next_task_id
      ∧ v.task.number = Value.str (TaskManager.generate_task_number s now.day)
      ∧ v.task.status = Value.str ("новая")
      ∧ v.task.progress = Value.int 0
      ∧ v.history = [⟨s.next_history_id, s.next_task_id, "Задача создана",
          d.created_by, [], now⟩]
      ∧ v.comments = []
      ∧ (TaskManager.add_task s d now).1.tasks = s.tasks ++ [v.task]
      ∧ (TaskManager.add_task s d now).1.task_history =
          s.task_history ++ v.history := by
  have hfindold : s.tasks.find?
      (fun r => decide (r.id = Value.int s.next_task_id)) = none :=
    List.find?_eq_none.mpr (fun r hr => by simpa using hfresh r hr)
  refine ⟨⟨{ id := Value.int s.next_task_id
             number := Value.str (TaskManager.generate_task_number s now.day)
             title := Value.str d.title
             description := Value.str d.description
             priority := Value.str d.priority
             urgency := Value.str d.urgency
             status := Value.str ("новая")
             progress := Value.int 0
             created_by := Value.str d.created_by
             assigned_to := match d.assigned_to with
               | some a => Value.str a
               | none => Value.null
             created_at := Value.ts now
             updated_at := Value.ts now },
          [⟨s.next_history_id, s.next_task_id, "Задача создана",
            d.created_by, [], now⟩], []⟩,
    ?_, rfl, rfl, rfl, rfl, rfl, rfl, rfl, rfl⟩
  unfold TaskManager.add_task TaskManager.get_task
  simp only
  rw [find?_append_none _ _ _ hfindold]
  have hhist : (s.task_history ++
      ([⟨s.next_history_id, s.next_task_id, "Задача создана", d.created_by, [], now⟩] :
        List HistoryRow)).filter
        (fun h => decide (h.task_id = s.next_task_id)) =
      ([⟨s.next_history_id, s.next_task_id, "Задача создана", d.created_by, [], now⟩] :
        List HistoryRow) := by
    rw [List.filter_append,
      List.filter_eq_nil_iff.mpr (fun h hm => by simpa using hh h hm)]
    simp
  have hcom : s.task_comments.filter
      (fun c => decide (c.task_id = s.next_task_id)) = [] :=
    List.filter_eq_nil_iff.mpr (fun c hm => by simpa using hc c hm)
  rw [hhist, hcom]
  simp [List.find?_cons]

/-- Witness for C4: creating a task in the empty store on day `250102`. -/
theorem TaskManager.add_task_spec_witness :
    (∀ r ∈ emptyStore.tasks, ¬ r.id = Value.int emptyStore.next_task_id)
    ∧ ∃ v : TaskView,
        (TaskManager.add_task emptyStore sampleData ⟨"250102", 0⟩).2 = some v
        ∧ v.task.status = Value.str ("новая")
        ∧ v.task.progress = Value.int 0 := by
  refine ⟨by decide, ?_⟩
  obtain ⟨v, h1, _, _, h4, h5, _⟩ :=
    TaskManager.add_task_spec emptyStore sampleData ⟨"250102", 0⟩
      (by decide) (by decide) (by decide)
  exact ⟨v, h1, h4, h5⟩

theorem setField_updated_at (r : TaskRow) (v : Value) :
    (r.setField ("updated_at") v).updated_at = v := by
  simp [TaskRow.setField]

theorem computeChanges_mem (cur : TaskRow) (updates : List (String × Value))
    (k : String) (old nw : Value) :
    (k, old, nw) ∈ TaskManager.computeChanges cur updates ↔
      ((k, nw) ∈ updates ∧ cur.getField k = some old ∧ ¬ old = nw) := by
  constructor
  · intro hm
    obtain ⟨kv, hkv, hf⟩ := List.mem_filterMap.mp hm
    cases hg : cur.getField kv.1 with
    | none =>
      rw [hg] at hf
      exact absurd hf (by simp)
    | some o =>
      rw [hg] at hf
      have hf' : (if o = kv.2 then (none : Option (String × Value × Value))
          else some (kv.1, o, kv.2)) = some (k, old, nw) := hf
      by_cases he : o = kv.2
      · rw [if_pos he] at hf'
        cases hf'
      · rw [if_neg he] at hf'
        obtain ⟨kk, vv⟩ := kv
        have h3 := Option.some.inj hf'
        injection h3 with ha hb
        injection hb with hb1 hb2
        subst ha hb1 hb2
        exact ⟨hkv, hg, he⟩
  · rintro ⟨hmem, hget, hne⟩
    refine List.mem_filterMap.mpr ⟨(k, nw), hmem, ?_⟩
    rw [hget]
    show (if old = nw then (none : Option (String × Value × Value))
      else some (k, old, nw)) = some (k, old, nw)
    exact if_neg hne

theorem computeChanges_eq_nil (cur : TaskRow) (updates : List (String × Value)) :
    TaskManager.computeChanges cur updates = [] ↔
      ¬ ∃ kv ∈ updates, ∃ old, cur.getField kv.1 = some old ∧ ¬ old = kv.2 := by
  unfold TaskManager.computeChanges
  rw [List.filterMap_eq_nil_iff]
  constructor
  · rintro hall ⟨kv, hkv, old, hg, hne⟩
    have h1 := hall kv hkv
    rw [hg] at h1
    have h2 : (if old = kv.2 then (none : Option (String × Value × Value))
        else some (kv.1, old, kv.2)) = none := h1
    rw [if_neg hne] at h2
    cases h2
  · intro hnex kv hkv
    cases hg : cur.getField kv.1 with
    | none => rfl
    | some old =>
      show (if old = kv.2 then (none : Option (String × Value × Value))
        else some (kv.1, old, kv.2)) = none
      by_cases he : old = kv.2
      · rw [if_pos he]
      · exact absurd ⟨kv, hkv, old, hg, he⟩ hnex

/-- **C1.** For an existing task, `update(id, fieldChanges, actingUser)`
appends a history row exactly when some proposed field is a recognized task
field whose new value differs from the current one; in that case it appends
exactly one row whose `changes` JSON holds the from/to pair of exactly the
changed fields, and the row update refreshes `updated_at`; when nothing
changes the store (hence also `updated_at`) is left entirely unchanged. -/
theorem TaskManager.update_task_spec (s : Store) (task_id : Nat)
    (updates : List (String × Value)) (user : String) (now : Timestamp)
    (cur : TaskRow)
    (hfind : s.tasks.find? (fun r => decide (r.id = Value.int task_id)) = some cur) :
    ((∃ kv ∈ updates, ∃ old, cur.getField kv.1 = some old ∧ ¬ old = kv.2) ↔
      ¬ (TaskManager.update_task s task_id updates user now).1.task_history =
          s.task_history)
    ∧ (TaskManager.computeChanges cur updates = [] →
        (TaskManager.update_task s task_id updates user now).1 = s)
    ∧ (¬ TaskManager.computeChanges cur updates = [] →
        (TaskManager.update_task s task_id updates user now).1.task_history =
          s.task_history ++
            [⟨s.next_history_id, task_id, "Задача обновлена", user,
              (TaskManager.computeChanges cur updates).map
                (fun c => (c.1, JsonField.diff c.2.1 c.2.2)), now⟩]
        ∧ (TaskManager.update_task s task_id updates user now).1.tasks =
            s.tasks.map (fun r => if r.id = Value.int task_id
              then TaskManager.applyChanges r (TaskManager.computeChanges cur updates) now
              else r))
    ∧ (∀ k old nw, (k, old, nw) ∈ TaskManager.computeChanges cur updates ↔
        ((k, nw) ∈ updates ∧ cur.getField k = some old ∧ ¬ old = nw))
    ∧ (∀ (r : TaskRow) (changes : List (String × Value × Value)),
        (TaskManager.applyChanges r changes now).updated_at = Value.ts now) := by
  have happly : ∀ (r : TaskRow) (changes : List (String × Value × Value)),
      (TaskManager.applyChanges r changes now).updated_at = Value.ts now := by
    intro r changes
    unfold TaskManager.applyChanges
    exact setField_updated_at _ _
  by_cases hch : TaskManager.computeChanges cur updates = []
  · have hupd : TaskManager.update_task s task_id updates user now =
        (s, TaskManager.get_task s task_id) := by
      unfold TaskManager.update_task
      rw [hfind]
      simp only [hch, List.isEmpty_nil, if_true]
    refine ⟨⟨fun hex => absurd hex ((computeChanges_eq_nil cur updates).mp hch),
        fun hne => absurd (by rw [hupd]) hne⟩,
      fun _ => by rw [hupd], fun hne => absurd hch hne,
      computeChanges_mem cur updates, happly⟩
  · have hempty : (TaskManager.computeChanges cur updates).isEmpty = false := by
      cases hceq : TaskManager.computeChanges cur updates with
      | nil => exact absurd hceq hch
      | cons a l => rfl
    have hupd : (TaskManager.update_task s task_id updates user now).1 =
        { s with
          tasks := s.tasks.map (fun r => if r.id = Value.int task_id
            then TaskManager.applyChanges r (TaskManager.computeChanges cur updates) now
            else r)
          task_history := s.task_history ++
            [⟨s.next_history_id, task_id, "Задача обновлена", user,
              (TaskManager.computeChanges cur updates).map
                (fun c => (c.1, JsonField.diff c.2.1 c.2.2)), now⟩]
          next_history_id := s.next_history_id + 1 } := by
      unfold TaskManager.update_task
      rw [hfind]
      simp only [hempty, Bool.false_eq_true, if_false]
    have hne : ¬ (TaskManager.update_task s task_id updates user now).1.task_history =
        s.task_history := by
      rw [hupd]
      intro h
      have hlen := congrArg List.length h
      simp at hlen
    refine ⟨⟨fun _ => hne, fun _ => ?_⟩, fun h => absurd h hch,
      fun _ => ⟨by rw [hupd], by rw [hupd]⟩, computeChanges_mem cur updates, happly⟩
    by_contra hnex
    exact hch ((computeChanges_eq_nil cur updates).mpr hnex)

/-- Witness for C1: updating the sample task's status appends one history
row recording the status diff. -/
theorem TaskManager.update_task_spec_witness :
    sampleStore.tasks.find? (fun r => decide (r.id = Value.int 1)) = some sampleTask
    ∧ ¬ TaskManager.computeChanges sampleTask [("status", Value.str ("в_работе"))] = []
    ∧ (TaskManager.update_task sampleStore 1 [("status", Value.str ("в_работе"))]
        ("bob") ⟨"250102", 1⟩).1.task_history =
        sampleStore.task_history ++
          [⟨2, 1, "Задача обновлена", "bob",
            (TaskManager.computeChanges sampleTask [("status", Value.str ("в_работе"))]).map
              (fun c => (c.1, JsonField.diff c.2.1 c.2.2)), ⟨"250102", 1⟩⟩] :=
  ⟨by decide, by decide,
    ((TaskManager.update_task_spec sampleStore 1 [("status", Value.str ("в_работе"))]
      ("bob") ⟨"250102", 1⟩ sampleTask (by decide)).2.2.1 (by decide)).1⟩

/-! ### Claims about task numbering -/

theorem likeTaskNumber_generated (day : String) (x : String) :
    TaskManager.likeTaskNumber ("TASK-" ++ day ++ "-")
      (Value.str ("TASK-" ++ day ++ "-" ++ x)) = true := by
  show ("TASK-" ++ day ++ "-").data.isPrefixOf
    ("TASK-" ++ day ++ "-" ++ x).data = true
  rw [List.isPrefixOf_iff_prefix]
  have h : ("TASK-" ++ day ++ "-" ++ x).data
      = ("TASK-" ++ day ++ "-").data ++ x.data := by
    simp [String.data_append]
  rw [h]
  exact List.prefix_append _ _

theorem countTodaysTasks_add_task (s : Store) (d : TaskManager.TaskData)
    (day : String) (tk : Nat) :
    TaskManager.countTodaysTasks (TaskManager.add_task s d ⟨day, tk⟩).1 day
      = TaskManager.countTodaysTasks s day + 1 := by
  unfold TaskManager.add_task TaskManager.countTodaysTasks
  simp only
  rw [List.filter_append, List.length_append]
  have hrow : (TaskManager.likeTaskNumber ("TASK-" ++ day ++ "-")
        (Value.str (TaskManager.generate_task_number s (Timestamp.mk day tk).day))
      && TaskManager.createdOn day (Value.ts ⟨day, tk⟩)) = true := by
    rw [Bool.and_eq_true]
    exact ⟨likeTaskNumber_generated day _, by simp [TaskManager.createdOn]⟩
  simp [hrow]

theorem runCreates_numbers (day : String) (ds : List (TaskManager.TaskData × Nat)) :
    ∀ s : Store,
    (TaskManager.runCreates day s ds).tasks.map TaskRow.number =
      s.tasks.map TaskRow.number ++ (List.range ds.length).map
        (fun i => Value.str ("TASK-" ++ day ++ "-" ++
          pad4 (TaskManager.countTodaysTasks s day + i + 1))) := by
  induction ds with
  | nil =>
    intro s
    simp [TaskManager.runCreates]
  | cons p ds ih =>
    intro s
    obtain ⟨d, tk⟩ := p
    show (TaskManager.runCreates day
      (TaskManager.add_task s d ⟨day, tk⟩).1 ds).tasks.map TaskRow.number = _
    rw [ih]
    have htasks : (TaskManager.add_task s d ⟨day, tk⟩).1.tasks.map TaskRow.number
        = s.tasks.map TaskRow.number ++
          [Value.str (TaskManager.generate_task_number s day)] := by
      unfold TaskManager.add_task
      simp
    rw [htasks, countTodaysTasks_add_task, List.length_cons,
      List.range_succ_eq_map, List.map_cons, List.map_map, List.append_assoc,
      List.singleton_append]
    have hhead : Value.str (TaskManager.generate_task_number s day) = Value.str
        ("TASK-" ++ day ++ "-" ++ pad4 (TaskManager.countTodaysTasks s day + 0 + 1)) := by
      rw [TaskManager.generate_task_number]
    have htail : (List.range ds.length).map
        (fun i => Value.str ("TASK-" ++ day ++ "-" ++
          pad4 (TaskManager.countTodaysTasks s day + 1 + i + 1)))
        = (List.range ds.length).map
          ((fun i => Value.str ("TASK-" ++ day ++ "-" ++
            pad4 (TaskManager.countTodaysTasks s day + i + 1))) ∘ Nat.succ) := by
      refine List.map_congr_left (fun i _ => ?_)
      simp only [Function.comp_apply]
      have harith : TaskManager.countTodaysTasks s day + 1 + i + 1
          = TaskManager.countTodaysTasks s day + Nat.succ i + 1 := by omega
      rw [harith]
    rw [hhead, htail]

/-- **C3.** `generate_task_number()` yields `TASK-{today}-{seq}` with
`seq` = (count of tasks created today) + 1 zero-padded to four digits
(whenever every task created today carries today's number prefix, as every
task the store creates does); consequently a serialized run of creations on
one fresh day numbers the new tasks `0001, 0002, ...` in order — strictly
increasing with no gaps — and the numbers are pairwise distinct. -/
theorem TaskManager.task_numbering_spec :
    (∀ (s : Store) (day : String),
      (∀ r ∈ s.tasks, TaskManager.createdOn day r.created_at = true →
        TaskManager.likeTaskNumber ("TASK-" ++ day ++ "-") r.number = true) →
      TaskManager.generate_task_number s day = "TASK-" ++ day ++ "-" ++
        pad4 ((s.tasks.filter
          (fun r => TaskManager.createdOn day r.created_at)).length + 1))
    ∧ (∀ (day : String) (s : Store) (ds : List (TaskManager.TaskData × Nat)),
        (∀ r ∈ s.tasks, TaskManager.createdOn day r.created_at = false) →
        (TaskManager.runCreates day s ds).tasks.map TaskRow.number =
          s.tasks.map TaskRow.number ++ (List.range ds.length).map
            (fun i => Value.str ("TASK-" ++ day ++ "-" ++ pad4 (i + 1)))
        ∧ ((List.range ds.length).map
            (fun i => "TASK-" ++ day ++ "-" ++ pad4 (i + 1))).Nodup) := by
  have hinj : ∀ day : String, Function.Injective
      (fun i : Nat => "TASK-" ++ day ++ "-" ++ pad4 (i + 1)) := by
    intro day a b h
    have h2 : pad4 (a + 1) = pad4 (b + 1) := string_append_left_cancel h
    have h3 := pad4_injective h2
    omega
  constructor
  · intro s day hpref
    unfold TaskManager.generate_task_number TaskManager.countTodaysTasks
    have hfe : s.tasks.filter (fun r =>
          TaskManager.likeTaskNumber ("TASK-" ++ day ++ "-") r.number &&
            TaskManager.createdOn day r.created_at)
        = s.tasks.filter (fun r => TaskManager.createdOn day r.created_at) := by
      refine List.filter_congr (fun r hr => ?_)
      cases hcr : TaskManager.createdOn day r.created_at with
      | false => rw [Bool.and_false]
      | true => rw [Bool.and_true, hpref r hr hcr]
    rw [hfe]
  · intro day s ds h0
    have hcount0 : TaskManager.countTodaysTasks s day = 0 := by
      unfold TaskManager.countTodaysTasks
      rw [List.filter_eq_nil_iff.mpr (fun r hr => by rw [h0 r hr, Bool.and_false]; simp)]
      rfl
    refine ⟨?_, ((List.nodup_range ds.length).map (hinj day))⟩
    rw [runCreates_numbers, hcount0]
    congr 1
    refine List.map_congr_left (fun i _ => ?_)
    norm_num

/-- Witness for C3: two serialized creations on the fresh day `250102`
starting from `sampleStore` (whose only task was created on `250101`). -/
theorem TaskManager.task_numbering_spec_witness :
    (∀ r ∈ sampleStore.tasks, TaskManager.createdOn "250102" r.created_at = false)
    ∧ (TaskManager.runCreates "250102" sampleStore
        [(sampleData, 0), (sampleData, 1)]).tasks.map TaskRow.number =
        sampleStore.tasks.map TaskRow.number ++ (List.range 2).map
          (fun i => Value.str ("TASK-" ++ "250102" ++ "-" ++ pad4 (i + 1))) :=
  ⟨by decide,
    ((TaskManager.task_numbering_spec).2 "250102" sampleStore
      [(sampleData, 0), (sampleData, 1)] (by decide)).1⟩

/-! ### Claims about the schema migrator, continued: idempotence -/

theorem find?_append_some {α : Type} (p : α → Bool) (l₁ l₂ : List α) (v : α)
    (h : l₁.find? p = some v) : (l₁ ++ l₂).find? p = some v := by
  induction l₁ with
  | nil => cases h
  | cons a l ih =>
    rw [List.cons_append]
    cases hp : p a with
    | true =>
      have hv : a = v := by simpa [List.find?_cons, hp] using h
      subst hv
      simp [List.find?_cons, hp]
    | false =>
      have h' : l.find? p = some v := by simpa [List.find?_cons, hp] using h
      simpa [List.find?_cons, hp] using ih h'

theorem alookup_append_left {α : Type} (l₁ l₂ : List (String × α)) (k : String)
    (h : (alookup l₁ k).isSome = true) : alookup (l₁ ++ l₂) k = alookup l₁ k := by
  unfold alookup at h ⊢
  cases hf : l₁.find? (fun p => decide (p.1 = k)) with
  | none => rw [hf] at h; cases h
  | some v => rw [find?_append_some _ _ _ _ hf]

theorem alookup_append_right {α : Type} (l₁ l₂ : List (String × α)) (k : String)
    (h : alookup l₁ k = none) : alookup (l₁ ++ l₂) k = alookup l₂ k := by
  unfold alookup at h ⊢
  cases hf : l₁.find? (fun p => decide (p.1 = k)) with
  | none => rw [find?_append_none _ _ _ hf]
  | some v => rw [hf] at h; cases h

theorem alookup_singleton_self {α : Type} (k : String) (v : α) :
    alookup [(k, v)] k = some v := by
  simp [alookup, List.find?]

theorem alookup_none_of_not_isSome {α : Type} (l : List (String × α)) (k : String)
    (h : ¬ (alookup l k).isSome = true) : alookup l k = none := by
  cases hv : alookup l k with
  | none => rfl
  | some v => rw [hv] at h; exact absurd rfl h

theorem alookup_cons {α : Type} (n : String) (v : α) (l : List (String × α))
    (k : String) :
    alookup ((n, v) :: l) k = if n = k then some v else alookup l k := by
  by_cases hn : n = k
  · simp [alookup, List.find?_cons, hn]
  · simp [alookup, List.find?_cons, hn]

theorem alookup_addColumn (sc : List (String × List String)) (t c k : String) :
    alookup (MigrationManager.addColumn sc t c) k =
      if k = t then (alookup sc k).map (fun cols => cols ++ [c])
      else alookup sc k := by
  induction sc with
  | nil => by_cases hk : k = t <;> simp [MigrationManager.addColumn, alookup, hk]
  | cons a sc ih =>
    obtain ⟨n, cols⟩ := a
    have hstep : MigrationManager.addColumn ((n, cols) :: sc) t c =
        (if n = t then (n, cols ++ [c]) else (n, cols)) ::
          MigrationManager.addColumn sc t c := rfl
    rw [hstep]
    by_cases hnt : n = t
    · rw [if_pos hnt]
      by_cases hnk : n = k
      · rw [alookup_cons, alookup_cons, if_pos hnk,
          if_pos (show k = t from hnk ▸ hnt), if_pos hnk]
        rfl
      · rw [alookup_cons, alookup_cons, if_neg hnk, if_neg hnk]
        exact ih
    · rw [if_neg hnt]
      by_cases hnk : n = k
      · rw [alookup_cons, alookup_cons, if_pos hnk,
          if_neg (fun hkt : k = t => hnt (hnk.trans hkt)), if_pos hnk]
      · rw [alookup_cons, alookup_cons, if_neg hnk, if_neg hnk]
        exact ih

theorem aset_singleton_self {α : Type} (k : String) (v v' : α) :
    aset [(k, v)] k v' = [(k, v')] := by
  simp [aset, List.find?_cons]

theorem ensure_table_of_present (m : MigrationManager) (name : String)
    (cols : List String) (h : (alookup m.db.schema name).isSome = true) :
    m.ensure_table name cols = m := by
  unfold MigrationManager.ensure_table
  rw [if_pos h]

theorem ensure_table_pending (m : MigrationManager) (name : String)
    (cols : List String) :
    (m.ensure_table name cols).pending_actions = m.pending_actions := by
  unfold MigrationManager.ensure_table
  split <;> rfl

theorem ensure_table_backups (m : MigrationManager) (name : String)
    (cols : List String) :
    (m.ensure_table name cols).db.backups = m.db.backups := by
  unfold MigrationManager.ensure_table
  split <;> rfl

theorem ensure_table_fileExists (m : MigrationManager) (name : String)
    (cols : List String) :
    (m.ensure_table name cols).db.fileExists = m.db.fileExists := by
  unfold MigrationManager.ensure_table
  split <;> rfl

theorem ensure_table_cache_nil (m : MigrationManager) (name : String)
    (cols : List String) (h : m.columns_cache = []) :
    (m.ensure_table name cols).columns_cache = [] := by
  unfold MigrationManager.ensure_table
  split
  · exact h
  · show aerase m.columns_cache name = []
    rw [h]
    rfl

theorem ensure_table_present_after (m : MigrationManager) (name : String)
    (cols : List String) :
    (alookup (m.ensure_table name cols).db.schema name).isSome = true := by
  unfold MigrationManager.ensure_table
  by_cases h : (alookup m.db.schema name).isSome = true
  · rw [if_pos h]
    exact h
  · rw [if_neg h]
    show (alookup (m.db.schema ++ [(name, cols)]) name).isSome = true
    rw [alookup_append_right _ _ _ (alookup_none_of_not_isSome _ _ h),
      alookup_singleton_self]
    rfl

theorem ensure_table_preserves_lookup (m : MigrationManager) (name : String)
    (cols : List String) (t : String) (h : (alookup m.db.schema t).isSome = true) :
    alookup (m.ensure_table name cols).db.schema t = alookup m.db.schema t := by
  unfold MigrationManager.ensure_table
  by_cases hp : (alookup m.db.schema name).isSome = true
  · rw [if_pos hp]
  · rw [if_neg hp]
    show alookup (m.db.schema ++ [(name, cols)]) t = _
    exact alookup_append_left _ _ _ h

theorem get_columns_empty_cache (m : MigrationManager) (table : String)
    (hc : m.columns_cache = []) :
    m.get_columns table =
      ({ m with columns_cache := [(table, (alookup m.db.schema table).getD [])] },
        (alookup m.db.schema table).getD []) := by
  unfold MigrationManager.get_columns
  rw [hc]
  rfl

theorem get_columns_cached (m : MigrationManager) (table : String)
    (C : List String) (hc : m.columns_cache = [(table, C)]) :
    m.get_columns table = (m, C) := by
  unfold MigrationManager.get_columns
  rw [hc, alookup_singleton_self]

theorem ensure_column_via (m : MigrationManager) (table column ty : String)
    (fe : Option String) (m₁ : MigrationManager) (C : List String)
    (hgc : m.get_columns table = (m₁, C)) :
    (column ∈ C → m.ensure_column table column ty fe = m₁)
    ∧ (column ∉ C → m.ensure_column table column ty fe =
        { m₁ with
          pending_actions := m₁.pending_actions ++
            [⟨table, column, ty, fe⟩]
          columns_cache := aset m₁.columns_cache table (C ++ [column]) }) := by
  have hval : m.ensure_column table column ty fe =
      if column ∈ C then m₁ else
        { m₁ with
          pending_actions := m₁.pending_actions ++ [⟨table, column, ty, fe⟩]
          columns_cache := aset m₁.columns_cache table (C ++ [column]) } := by
    unfold MigrationManager.ensure_column
    rw [hgc]
  constructor
  · intro h
    rw [hval, if_pos h]
  · intro h
    rw [hval, if_neg h]

theorem apply_of_no_pending (m : MigrationManager) (b : Bool)
    (h : m.pending_actions = []) : m.apply b = (m, true) := by
  unfold MigrationManager.apply
  rw [h]
  rfl

theorem apply_of_pending_failed (m : MigrationManager) (b : Bool)
    (hpend : ¬ m.pending_actions = [])
    (hgate : (m.db.fileExists && !b) = true) : m.apply b = (m, false) := by
  have hne : m.pending_actions.isEmpty = false := by
    cases hp : m.pending_actions with
    | nil => exact absurd hp hpend
    | cons a l => rfl
  unfold MigrationManager.apply
  rw [hne, hgate]
  rfl

theorem apply_of_pending (m : MigrationManager) (b : Bool)
    (hpend : ¬ m.pending_actions = [])
    (hgate : (m.db.fileExists && !b) = false) :
    m.apply b =
      ({ m with db :=
        { schema := m.pending_actions.foldl
            (fun sc a => MigrationManager.addColumn sc a.table a.column) m.db.schema
          backups := if m.db.fileExists = true then m.db.backups + 1 else m.db.backups
          fileExists := m.db.fileExists } }, true) := by
  have hne : m.pending_actions.isEmpty = false := by
    cases hp : m.pending_actions with
    | nil => exact absurd hp hpend
    | cons a l => rfl
  unfold MigrationManager.apply
  rw [hne, hgate]
  cases hf : m.db.fileExists with
  | true => simp [hf]
  | false => simp [hf]

theorem up_to_date_noop (db : DBFile) (b : Bool) (h : db.UpToDate) :
    Database.run_migrations db b = (db, true) := by
  obtain ⟨hus, hts, hth, htc, hss, hem, hup⟩ := h
  obtain ⟨C, hC⟩ := Option.isSome_iff_exists.mp hus
  rw [hC] at hem hup
  have hrun : Database.run_migrations db b =
      ((((((((((MigrationManager.mk db [] []).ensure_table ("users") usersDDL).ensure_table
        ("tasks") tasksDDL).ensure_table ("task_history") taskHistoryDDL).ensure_table
        ("task_comments") taskCommentsDDL).ensure_table ("system_settings")
        systemSettingsDDL).ensure_column ("users") ("email") ("TEXT")
        none).ensure_column ("users") ("updated_at") ("TIMESTAMP")
        (some "CURRENT_TIMESTAMP")).apply b).1.db,
      (((((((((MigrationManager.mk db [] []).ensure_table ("users") usersDDL).ensure_table
        ("tasks") tasksDDL).ensure_table ("task_history") taskHistoryDDL).ensure_table
        ("task_comments") taskCommentsDDL).ensure_table ("system_settings")
        systemSettingsDDL).ensure_column ("users") ("email") ("TEXT")
        none).ensure_column ("users") ("updated_at") ("TIMESTAMP")
        (some "CURRENT_TIMESTAMP")).apply b).2) := rfl
  have e1 : (MigrationManager.mk db [] []).ensure_table ("users") usersDDL =
      MigrationManager.mk db [] [] := ensure_table_of_present _ _ _ hus
  have e2 : (MigrationManager.mk db [] []).ensure_table ("tasks") tasksDDL =
      MigrationManager.mk db [] [] := ensure_table_of_present _ _ _ hts
  have e3 : (MigrationManager.mk db [] []).ensure_table ("task_history") taskHistoryDDL =
      MigrationManager.mk db [] [] := ensure_table_of_present _ _ _ hth
  have e4 : (MigrationManager.mk db [] []).ensure_table ("task_comments") taskCommentsDDL =
      MigrationManager.mk db [] [] := ensure_table_of_present _ _ _ htc
  have e5 : (MigrationManager.mk db [] []).ensure_table ("system_settings") systemSettingsDDL =
      MigrationManager.mk db [] [] := ensure_table_of_present _ _ _ hss
  have hgc6 : (MigrationManager.mk db [] []).get_columns ("users") =
      (MigrationManager.mk db [] [(("users"), C)], C) := by
    have h0 := get_columns_empty_cache (MigrationManager.mk db [] []) ("users") rfl
    rw [show alookup (MigrationManager.mk db [] []).db.schema ("users") = some C from hC] at h0
    exact h0
  have e6 : (MigrationManager.mk db [] []).ensure_column ("users") ("email") ("TEXT") none =
      MigrationManager.mk db [] [(("users"), C)] :=
    (ensure_column_via _ _ _ _ _ _ _ hgc6).1 hem
  have hgc7 : (MigrationManager.mk db [] [(("users"), C)]).get_columns ("users") =
      (MigrationManager.mk db [] [(("users"), C)], C) :=
    get_columns_cached _ _ _ rfl
  have e7 : (MigrationManager.mk db [] [(("users"), C)]).ensure_column ("users")
      ("updated_at") ("TIMESTAMP") (some "CURRENT_TIMESTAMP") =
      MigrationManager.mk db [] [(("users"), C)] :=
    (ensure_column_via _ _ _ _ _ _ _ hgc7).1 hup
  have e8 : (MigrationManager.mk db [] [(("users"), C)]).apply b =
      (MigrationManager.mk db [] [(("users"), C)], true) :=
    apply_of_no_pending _ _ rfl
  rw [hrun, e1, e2, e3, e4, e5, e6, e7, e8]

theorem haddUsers (sc : List (String × List String)) (c : String)
    (cs : List String) (h : alookup sc "users" = some cs) :
    alookup (MigrationManager.addColumn sc ("users") c) "users" = some (cs ++ [c]) := by
  rw [alookup_addColumn, if_pos rfl, h]
  rfl

theorem hpresAdd (sc : List (String × List String)) (t c k : String)
    (h : (alookup sc k).isSome = true) :
    (alookup (MigrationManager.addColumn sc t c) k).isSome = true := by
  rw [alookup_addColumn]
  by_cases hk : k = t
  · rw [if_pos hk]
    cases hv : alookup sc k with
    | none => rw [hv] at h; cases h
    | some cs => rfl
  · rw [if_neg hk]
    exact h

theorem schema_foldl_users_cols (cols : List PendingAction) :
    ∀ (sc : List (String × List String)) (C : List String),
    alookup sc "users" = some C →
    (∀ a ∈ cols, a.table = "users") →
    alookup (cols.foldl (fun s a => MigrationManager.addColumn s a.table a.column) sc)
        "users" = some (C ++ cols.map PendingAction.column) := by
  induction cols with
  | nil =>
    intro sc C h _
    simpa using h
  | cons a cols ih =>
    intro sc C h hall
    rw [List.foldl_cons]
    have hat : a.table = "users" := hall a (List.mem_cons_self _ _)
    have hstep : alookup (MigrationManager.addColumn sc a.table a.column) "users"
        = some (C ++ [a.column]) := by
      rw [hat]
      exact haddUsers sc a.column C h
    have := ih (MigrationManager.addColumn sc a.table a.column) (C ++ [a.column])
      hstep (fun x hx => hall x (List.mem_cons_of_mem _ hx))
    rw [this, List.map_cons, List.append_assoc]
    rfl

theorem schema_foldl_presence (cols : List PendingAction) :
    ∀ (sc : List (String × List String)) (k : String),
    (alookup sc k).isSome = true →
    (alookup (cols.foldl (fun s a => MigrationManager.addColumn s a.table a.column) sc)
        k).isSome = true := by
  induction cols with
  | nil => intro sc k h; exact h
  | cons a cols ih =>
    intro sc k h
    rw [List.foldl_cons]
    exact ih _ _ (hpresAdd _ _ _ _ h)

theorem upToDate_of_users_cols (dbf : DBFile) (cs : List String)
    (hus : alookup dbf.schema "users" = some cs)
    (hts : (alookup dbf.schema "tasks").isSome = true)
    (hth : (alookup dbf.schema "task_history").isSome = true)
    (htc : (alookup dbf.schema "task_comments").isSome = true)
    (hss : (alookup dbf.schema "system_settings").isSome = true)
    (hem : "email" ∈ cs) (hup : "updated_at" ∈ cs) : dbf.UpToDate :=
  ⟨by rw [hus]; rfl, hts, hth, htc, hss, by rw [hus]; exact hem, by rw [hus]; exact hup⟩

theorem run_migrations_success_upToDate (db db' : DBFile) (b : Bool)
    (h : Database.run_migrations db b = (db', true)) : db'.UpToDate := by
  have hstep : ∀ (m : MigrationManager) (name : String) (cols : List String)
      (t : String) (cs : List String), alookup m.db.schema t = some cs →
      alookup (m.ensure_table name cols).db.schema t = some cs := by
    intro m name cols t cs hcs
    rw [ensure_table_preserves_lookup m name cols t (by rw [hcs]; rfl)]
    exact hcs
  rw [show Database.run_migrations db b =
      ((((((((((MigrationManager.mk db [] []).ensure_table ("users") usersDDL).ensure_table
        ("tasks") tasksDDL).ensure_table ("task_history") taskHistoryDDL).ensure_table
        ("task_comments") taskCommentsDDL).ensure_table ("system_settings")
        systemSettingsDDL).ensure_column ("users") ("email") ("TEXT")
        none).ensure_column ("users") ("updated_at") ("TIMESTAMP")
        (some "CURRENT_TIMESTAMP")).apply b).1.db,
      (((((((((MigrationManager.mk db [] []).ensure_table ("users") usersDDL).ensure_table
        ("tasks") tasksDDL).ensure_table ("task_history") taskHistoryDDL).ensure_table
        ("task_comments") taskCommentsDDL).ensure_table ("system_settings")
        systemSettingsDDL).ensure_column ("users") ("email") ("TEXT")
        none).ensure_column ("users") ("updated_at") ("TIMESTAMP")
        (some "CURRENT_TIMESTAMP")).apply b).2) from rfl] at h
  obtain ⟨m1, hm1⟩ : ∃ m, (MigrationManager.mk db [] []).ensure_table ("users")
      usersDDL = m := ⟨_, rfl⟩
  have h1p : m1.pending_actions = [] := by rw [← hm1, ensure_table_pending]
  have h1c : m1.columns_cache = [] := by
    rw [← hm1]
    exact ensure_table_cache_nil _ _ _ rfl
  have hus1 : (alookup m1.db.schema "users").isSome = true := by
    rw [← hm1]
    exact ensure_table_present_after _ _ _
  obtain ⟨C, hC1⟩ := Option.isSome_iff_exists.mp hus1
  rw [hm1] at h
  obtain ⟨m2, hm2⟩ : ∃ m, m1.ensure_table ("tasks") tasksDDL = m := ⟨_, rfl⟩
  have h2p : m2.pending_actions = [] := by rw [← hm2, ensure_table_pending, h1p]
  have h2c : m2.columns_cache = [] := by
    rw [← hm2]
    exact ensure_table_cache_nil _ _ _ h1c
  have hC2 : alookup m2.db.schema "users" = some C := by
    rw [← hm2]
    exact hstep _ _ _ _ _ hC1
  have hts2 : (alookup m2.db.schema "tasks").isSome = true := by
    rw [← hm2]
    exact ensure_table_present_after _ _ _
  rw [hm2] at h
  obtain ⟨m3, hm3⟩ : ∃ m, m2.ensure_table ("task_history") taskHistoryDDL = m :=
    ⟨_, rfl⟩
  have h3p : m3.pending_actions = [] := by rw [← hm3, ensure_table_pending, h2p]
  have h3c : m3.columns_cache = [] := by
    rw [← hm3]
    exact ensure_table_cache_nil _ _ _ h2c
  have hC3 : alookup m3.db.schema "users" = some C := by
    rw [← hm3]
    exact hstep _ _ _ _ _ hC2
  obtain ⟨Ct, hCt2⟩ := Option.isSome_iff_exists.mp hts2
  have hts3 : alookup m3.db.schema "tasks" = some Ct := by
    rw [← hm3]
    exact hstep _ _ _ _ _ hCt2
  have hth3 : (alookup m3.db.schema "task_history").isSome = true := by
    rw [← hm3]
    exact ensure_table_present_after _ _ _
  rw [hm3] at h
  obtain ⟨m4, hm4⟩ : ∃ m, m3.ensure_table ("task_comments") taskCommentsDDL = m :=
    ⟨_, rfl⟩
  have h4p : m4.pending_actions = [] := by rw [← hm4, ensure_table_pending, h3p]
  have h4c : m4.columns_cache = [] := by
    rw [← hm4]
    exact ensure_table_cache_nil _ _ _ h3c
  have hC4 : alookup m4.db.schema "users" = some C := by
    rw [← hm4]
    exact hstep _ _ _ _ _ hC3
  have hts4 : alookup m4.db.schema "tasks" = some Ct := by
    rw [← hm4]
    exact hstep _ _ _ _ _ hts3
  obtain ⟨Ch, hCh3⟩ := Option.isSome_iff_exists.mp hth3
  have hth4 : alookup m4.db.schema "task_history" = some Ch := by
    rw [← hm4]
    exact hstep _ _ _ _ _ hCh3
  have htc4 : (alookup m4.db.schema "task_comments").isSome = true := by
    rw [← hm4]
    exact ensure_table_present_after _ _ _
  rw [hm4] at h
  obtain ⟨m5, hm5⟩ : ∃ m, m4.ensure_table ("system_settings") systemSettingsDDL = m :=
    ⟨_, rfl⟩
  have h5p : m5.pending_actions = [] := by rw [← hm5, ensure_table_pending, h4p]
  have h5c : m5.columns_cache = [] := by
    rw [← hm5]
    exact ensure_table_cache_nil _ _ _ h4c
  have hC5 : alookup m5.db.schema "users" = some C := by
    rw [← hm5]
    exact hstep _ _ _ _ _ hC4
  have hts5 : alookup m5.db.schema "tasks" = some Ct := by
    rw [← hm5]
    exact hstep _ _ _ _ _ hts4
  have hth5 : alookup m5.db.schema "task_history" = some Ch := by
    rw [← hm5]
    exact hstep _ _ _ _ _ hth4
  obtain ⟨Cc, hCc4⟩ := Option.isSome_iff_exists.mp htc4
  have htc5 : alookup m5.db.schema "task_comments" = some Cc := by
    rw [← hm5]
    exact hstep _ _ _ _ _ hCc4
  have hss5 : (alookup m5.db.schema "system_settings").isSome = true := by
    rw [← hm5]
    exact ensure_table_present_after _ _ _
  rw [hm5] at h
  have hts5s : (alookup m5.db.schema "tasks").isSome = true := by rw [hts5]; rfl
  have hth5s : (alookup m5.db.schema "task_history").isSome = true := by
    rw [hth5]; rfl
  have htc5s : (alookup m5.db.schema "task_comments").isSome = true := by
    rw [htc5]; rfl
  have hgc6 : m5.get_columns ("users") =
      ({ m5 with columns_cache := [(("users"), C)] }, C) := by
    have h0 := get_columns_empty_cache m5 ("users") h5c
    rw [hC5] at h0
    exact h0
  by_cases he : "email" ∈ C
  · have e6 : m5.ensure_column ("users") ("email") ("TEXT") none =
        { m5 with columns_cache := [(("users"), C)] } :=
      (ensure_column_via _ _ _ _ _ _ _ hgc6).1 he
    rw [e6] at h
    have hgc7 : ({ m5 with columns_cache := [(("users"), C)] } :
        MigrationManager).get_columns ("users") =
        ({ m5 with columns_cache := [(("users"), C)] }, C) :=
      get_columns_cached _ _ _ rfl
    by_cases hu : "updated_at" ∈ C
    · have e7 : ({ m5 with columns_cache := [(("users"), C)] } :
          MigrationManager).ensure_column ("users") ("updated_at") ("TIMESTAMP")
          (some "CURRENT_TIMESTAMP") = { m5 with columns_cache := [(("users"), C)] } :=
        (ensure_column_via _ _ _ _ _ _ _ hgc7).1 hu
      rw [e7, apply_of_no_pending
        ({ m5 with columns_cache := [(("users"), C)] } : MigrationManager) b h5p] at h
      have hdb : m5.db = db' := by simpa using congrArg Prod.fst h
      rw [← hdb]
      exact upToDate_of_users_cols _ C hC5 hts5s hth5s htc5s hss5 he hu
    · have e7 := (ensure_column_via _ ("users") ("updated_at") ("TIMESTAMP")
        (some "CURRENT_TIMESTAMP") _ _ hgc7).2 hu
      obtain ⟨m7, hm7⟩ : ∃ m, ({ m5 with columns_cache := [(("users"), C)] } :
          MigrationManager).ensure_column ("users") ("updated_at") ("TIMESTAMP")
          (some "CURRENT_TIMESTAMP") = m := ⟨_, rfl⟩
      rw [hm7] at h
      have hp7 : m7.pending_actions =
          [(⟨"users", "updated_at", "TIMESTAMP", some "CURRENT_TIMESTAMP"⟩ :
            PendingAction)] := by
        rw [← hm7, e7]
        show m5.pending_actions ++ _ = _
        rw [h5p]
        rfl
      have hdb7 : m7.db = m5.db := by rw [← hm7, e7]
      cases hgate : (m7.db.fileExists && !b) with
      | true =>
        rw [apply_of_pending_failed m7 b (by rw [hp7]; simp) hgate] at h
        have hbad : (false : Bool) = true := by simpa using congrArg Prod.snd h
        cases hbad
      | false =>
        rw [apply_of_pending m7 b (by rw [hp7]; simp) hgate] at h
        rw [Prod.mk.injEq] at h
        obtain ⟨hdb, -⟩ := h
        rw [← hdb]
        refine upToDate_of_users_cols _
          (C ++ [(⟨"users", "updated_at", "TIMESTAMP", some "CURRENT_TIMESTAMP"⟩ :
            PendingAction)].map PendingAction.column) ?_ ?_ ?_ ?_ ?_ ?_ ?_
        · show alookup (m7.pending_actions.foldl
            (fun sc a => MigrationManager.addColumn sc a.table a.column)
            m7.db.schema) "users" = _
          rw [hp7, hdb7]
          exact schema_foldl_users_cols _ _ _ hC5 (by decide)
        · show (alookup (m7.pending_actions.foldl
            (fun sc a => MigrationManager.addColumn sc a.table a.column)
            m7.db.schema) "tasks").isSome = true
          rw [hp7, hdb7]
          exact schema_foldl_presence _ _ _ hts5s
        · show (alookup (m7.pending_actions.foldl
            (fun sc a => MigrationManager.addColumn sc a.table a.column)
            m7.db.schema) "task_history").isSome = true
          rw [hp7, hdb7]
          exact schema_foldl_presence _ _ _ hth5s
        · show (alookup (m7.pending_actions.foldl
            (fun sc a => MigrationManager.addColumn sc a.table a.column)
            m7.db.schema) "task_comments").isSome = true
          rw [hp7, hdb7]
          exact schema_foldl_presence _ _ _ htc5s
        · show (alookup (m7.pending_actions.foldl
            (fun sc a => MigrationManager.addColumn sc a.table a.column)
            m7.db.schema) "system_settings").isSome = true
          rw [hp7, hdb7]
          exact schema_foldl_presence _ _ _ hss5
        · exact List.mem_append_left _ he
        · exact List.mem_append_right _ (by simp)
  · have e6 := (ensure_column_via _ ("users") ("email") ("TEXT")
      none _ _ hgc6).2 he
    obtain ⟨m6, hm6⟩ : ∃ m, m5.ensure_column ("users") ("email") ("TEXT") none = m :=
      ⟨_, rfl⟩
    rw [hm6] at h
    have hp6 : m6.pending_actions =
        [(⟨"users", "email", "TEXT", none⟩ : PendingAction)] := by
      rw [← hm6, e6]
      show m5.pending_actions ++ _ = _
      rw [h5p]
      rfl
    have hdb6 : m6.db = m5.db := by rw [← hm6, e6]
    have hc6 : m6.columns_cache = [(("users"), C ++ ["email"])] := by
      rw [← hm6, e6]
      show aset [(("users"), C)] ("users") (C ++ ["email"]) =
        [(("users"), C ++ ["email"])]
      exact aset_singleton_self _ _ _
    have hgc7 : m6.get_columns ("users") = (m6, C ++ ["email"]) :=
      get_columns_cached _ _ _ hc6
    by_cases hu : "updated_at" ∈ C ++ ["email"]
    · have e7 : m6.ensure_column ("users") ("updated_at") ("TIMESTAMP")
          (some "CURRENT_TIMESTAMP") = m6 :=
        (ensure_column_via _ _ _ _ _ _ _ hgc7).1 hu
      rw [e7] at h
      cases hgate : (m6.db.fileExists && !b) with
      | true =>
        rw [apply_of_pending_failed m6 b (by rw [hp6]; simp) hgate] at h
        have hbad : (false : Bool) = true := by simpa using congrArg Prod.snd h
        cases hbad
      | false =>
        rw [apply_of_pending m6 b (by rw [hp6]; simp) hgate] at h
        rw [Prod.mk.injEq] at h
        obtain ⟨hdb, -⟩ := h
        rw [← hdb]
        refine upToDate_of_users_cols _
          (C ++ [(⟨"users", "email", "TEXT", none⟩ : PendingAction)].map
            PendingAction.column) ?_ ?_ ?_ ?_ ?_ ?_ ?_
        · show alookup (m6.pending_actions.foldl
            (fun sc a => MigrationManager.addColumn sc a.table a.column)
            m6.db.schema) "users" = _
          rw [hp6, hdb6]
          exact schema_foldl_users_cols _ _ _ hC5 (by decide)
        · show (alookup (m6.pending_actions.foldl
            (fun sc a => MigrationManager.addColumn sc a.table a.column)
            m6.db.schema) "tasks").isSome = true
          rw [hp6, hdb6]
          exact schema_foldl_presence _ _ _ hts5s
        · show (alookup (m6.pending_actions.foldl
            (fun sc a => MigrationManager.addColumn sc a.table a.column)
            m6.db.schema) "task_history").isSome = true
          rw [hp6, hdb6]
          exact schema_foldl_presence _ _ _ hth5s
        · show (alookup (m6.pending_actions.foldl
            (fun sc a => MigrationManager.addColumn sc a.table a.column)
            m6.db.schema) "task_comments").isSome = true
          rw [hp6, hdb6]
          exact schema_foldl_presence _ _ _ htc5s
        · show (alookup (m6.pending_actions.foldl
            (fun sc a => MigrationManager.addColumn sc a.table a.column)
            m6.db.schema) "system_settings").isSome = true
          rw [hp6, hdb6]
          exact schema_foldl_presence _ _ _ hss5
        · exact List.mem_append_right _ (by simp)
        · exact hu
    · have e7 := (ensure_column_via _ ("users") ("updated_at") ("TIMESTAMP")
        (some "CURRENT_TIMESTAMP") _ _ hgc7).2 hu
      obtain ⟨m7, hm7⟩ : ∃ m, m6.ensure_column ("users") ("updated_at")
          ("TIMESTAMP") (some "CURRENT_TIMESTAMP") = m := ⟨_, rfl⟩
      rw [hm7] at h
      have hp7 : m7.pending_actions =
          [(⟨"users", "email", "TEXT", none⟩ : PendingAction),
           (⟨"users", "updated_at", "TIMESTAMP", some "CURRENT_TIMESTAMP"⟩ :
            PendingAction)] := by
        rw [← hm7, e7]
        show m6.pending_actions ++ _ = _
        rw [hp6]
        rfl
      have hdb7 : m7.db = m5.db := by
        rw [← hm7, e7]
        show m6.db = m5.db
        exact hdb6
      cases hgate : (m7.db.fileExists && !b) with
      | true =>
        rw [apply_of_pending_failed m7 b (by rw [hp7]; simp) hgate] at h
        have hbad : (false : Bool) = true := by simpa using congrArg Prod.snd h
        cases hbad
      | false =>
        rw [apply_of_pending m7 b (by rw [hp7]; simp) hgate] at h
        rw [Prod.mk.injEq] at h
        obtain ⟨hdb, -⟩ := h
        rw [← hdb]
        refine upToDate_of_users_cols _
          (C ++ [(⟨"users", "email", "TEXT", none⟩ : PendingAction),
            (⟨"users", "updated_at", "TIMESTAMP", some "CURRENT_TIMESTAMP"⟩ :
              PendingAction)].map PendingAction.column) ?_ ?_ ?_ ?_ ?_ ?_ ?_
        · show alookup (m7.pending_actions.foldl
            (fun sc a => MigrationManager.addColumn sc a.table a.column)
            m7.db.schema) "users" = _
          rw [hp7, hdb7]
          exact schema_foldl_users_cols _ _ _ hC5 (by decide)
        · show (alookup (m7.pending_actions.foldl
            (fun sc a => MigrationManager.addColumn sc a.table a.column)
            m7.db.schema) "tasks").isSome = true
          rw [hp7, hdb7]
          exact schema_foldl_presence _ _ _ hts5s
        · show (alookup (m7.pending_actions.foldl
            (fun sc a => MigrationManager.addColumn sc a.table a.column)
            m7.db.schema) "task_history").isSome = true
          rw [hp7, hdb7]
          exact schema_foldl_presence _ _ _ hth5s
        · show (alookup (m7.pending_actions.foldl
            (fun sc a => MigrationManager.addColumn sc a.table a.column)
            m7.db.schema) "task_comments").isSome = true
          rw [hp7, hdb7]
          exact schema_foldl_presence _ _ _ htc5s
        · show (alookup (m7.pending_actions.foldl
            (fun sc a => MigrationManager.addColumn sc a.table a.column)
            m7.db.schema) "system_settings").isSome = true
          rw [hp7, hdb7]
          exact schema_foldl_presence _ _ _ hss5
        · exact List.mem_append_right _ (by simp)
        · exact List.mem_append_right _ (by simp)

/-- **C6.** Running the schema migrator against a store whose schema is
already up to date is a pure no-op: nothing is queued, `apply` mutates
nothing, the backup count is unchanged and no error is signalled; in
particular, after any successful run a second run is a no-op. -/
theorem Database.migrations_idempotent :
    (∀ (db : DBFile) (b : Bool), db.UpToDate →
      Database.run_migrations db b = (db, true))
    ∧ (∀ (db db' : DBFile) (b₁ b₂ : Bool),
        Database.run_migrations db b₁ = (db', true) →
        Database.run_migrations db' b₂ = (db', true)) :=
  ⟨fun db b h => up_to_date_noop db b h,
   fun db db' b₁ b₂ h =>
     up_to_date_noop db' b₂ (run_migrations_success_upToDate db db' b₁ h)⟩

/-- Witness for C6: the migrator is a no-op on a database that already has
the five tables and the two ensured `users` columns. -/
theorem Database.migrations_idempotent_witness :
    upDB.UpToDate ∧ Database.run_migrations upDB true = (upDB, true) :=
  ⟨by unfold DBFile.UpToDate; decide,
    (Database.migrations_idempotent).1 upDB true
      (by unfold DBFile.UpToDate; decide)⟩

end TasksApp
